import Mathlib

/-!
Verification of `hermes_core/util/container.py`: a shallow embedding of the
`ScienceData` container, the extension-dispatch functions `read` and
`validate`, and the handler-delegated `save`/`load` paths, together with
theorems about their behavior.

Columns of an astropy time-series table are modelled as a list of named
columns; a column's payload is either a `Time` index column, a `Quantity`
(values plus a unit, the unit rendered as a string, the empty string standing
for a falsy unit), or a bare unitless `Column`.  External collaborators
(format handlers and validators) are parameters of the functions that call
them, and a handler's `save_data` call is recorded as a trace entry.
-/

namespace HermesCore

/-- Per-column metadata: an ordered key/value mapping (`OrderedDict`). -/
abbrev Meta := List (String × String)

/-- Payload of one table column. -/
inductive ColData where
  | time (vals : List Int)
  | quantity (vals : List Int) (unit : String)
  | plain (vals : List Int)
deriving Repr, DecidableEq

/-- The numeric values a column holds. -/
def ColData.vals : ColData → List Int
  | .time vs => vs
  | .quantity vs _ => vs
  | .plain vs => vs

/-- `isinstance(col, u.Quantity)`. -/
def ColData.isQuantity : ColData → Bool
  | .quantity _ _ => true
  | _ => false

/-- A named column: payload plus its own metadata mapping. -/
structure Column where
  name : String
  data : ColData
  meta : Meta
deriving Repr, DecidableEq

/-- A table: an ordered collection of named columns. -/
abbrev Table := List Column

/-- The column names of a table, in table order. -/
def colNames (t : Table) : List String := t.map (fun c => c.name)

/-- The format-specific IO handlers (`CDFHandler`, `NetCDFHandler`,
`FITSHandler`), externally defined. -/
inductive Handler where
  | cdf
  | netcdf
  | fits
deriving Repr, DecidableEq

/-- The format-specific validators (`CDFValidator`, `NetCDFValidator`,
`FITSValidator`), externally defined. -/
inductive Validator where
  | cdf
  | netcdf
  | fits
deriving Repr, DecidableEq

/-- One entry of the issue list a format validator returns; opaque here. -/
abbrev Issue := String

/-- The error kinds this layer raises, each carrying the raised message
(`ValueError`, `TypeError` and `KeyError` in the source, mapped to the
design's error taxonomy). -/
inductive Err where
  | invalidShape (msg : String)
  | missingUnit (msg : String)
  | typeMismatch (msg : String)
  | unsupportedFormat (msg : String)
  | missingColumn (msg : String)
  | noHandlerConfigured (msg : String)
deriving Repr, DecidableEq

/-- The runtime type of the value handed to `ScienceData.__init__`: a
`TimeSeries`, a plain `Table`, or anything else. -/
inductive InputData where
  | ts (t : Table)
  | tbl (t : Table)
  | other
deriving Repr, DecidableEq

def ncolsMsg : String := "Science data must have at least 2 columns"

def noTimeMsg : String := "Science data must have a 'time' column"

def badTypeMsg : String := "Invalid data type. Must be a TimeSeries or Table object."

def notQuantityMsg (colname : String) : String :=
  "Column '" ++ colname ++ "' must be an astropy.Quantity object"

def addVariableMsg (varName : String) : String :=
  "Column " ++ varName ++ " must be type `astropy.units.Quantity` and have `unit` assigned."

def missingColumnMsg (name : String) : String :=
  "CDFWriter does not contain data variable " ++ name

def noHandlerMsg : String := "No handler specified for saving data"

def unsupportedMsg (ext : String) : String := "Unsupported file type: " ++ ext

/-- The two shape checks of `ScienceData.__init__`, in source order: the
column count first, then the presence of a "time" column.  The source
repeats these two lines verbatim in its `TimeSeries` and `Table` branches. -/
def shapeCheck (t : Table) : Except Err Unit :=
  if t.length < 2 then Except.error (Err.invalidShape ncolsMsg)
  else if "time" ∉ colNames t then Except.error (Err.invalidShape noTimeMsg)
  else Except.ok ()

/-- `TimeSeries(data, time_column="time")`: the column named "time" becomes
the `Time` index column; all other columns are untouched. -/
def convertTimeColumn (t : Table) : Table :=
  t.map (fun c => if c.name = "time" then { name := c.name, data := ColData.time c.data.vals, meta := c.meta } else c)

/-- The first column, in table order, that the validation loop of
`ScienceData.__init__` rejects: named other than "time" and not a
`Quantity`. -/
def firstInvalidColumn (t : Table) : Option Column :=
  t.find? (fun c => c.name != "time" && !c.data.isQuantity)

/-- The per-column `Quantity` validation loop of `ScienceData.__init__`. -/
def unitCheck (t : Table) : Except Err Unit :=
  match firstInvalidColumn t with
  | some c => Except.error (Err.missingUnit (notQuantityMsg c.name))
  | none => Except.ok ()

/-- The container: its internal copied table and the optional IO handler. -/
structure ScienceData where
  cols : Table
  handler : Option Handler
deriving Repr, DecidableEq

/-- `ScienceData.__init__`: branch on the input's runtime type, run the two
shape checks, copy the input into the internal `TimeSeries` (converting the
"time" column when the input is a plain `Table`), then require every
non-time column to be a `Quantity`.  The per-column metadata re-derivation
of lines 96-104 rebuilds each stored column's metadata from the source
column's own metadata, which the copy already carries, so the stored table
equals the converted copy. -/
def ScienceData.make (data : InputData) (handler : Option Handler) : Except Err ScienceData :=
  match data with
  | InputData.ts t =>
    match shapeCheck t with
    | Except.error e => Except.error e
    | Except.ok _ =>
      match unitCheck t with
      | Except.error e => Except.error e
      | Except.ok _ => Except.ok { cols := t, handler := handler }
  | InputData.tbl t =>
    match shapeCheck t with
    | Except.error e => Except.error e
    | Except.ok _ =>
      match unitCheck (convertTimeColumn t) with
      | Except.error e => Except.error e
      | Except.ok _ => Except.ok { cols := convertTimeColumn t, handler := handler }
  | InputData.other => Except.error (Err.typeMismatch badTypeMsg)

/-- `ScienceData.__getitem__`: look the name up among the columns, raising a
`KeyError` when absent. -/
def ScienceData.get (sd : ScienceData) (name : String) : Except Err Column :=
  match sd.cols.find? (fun c => c.name == name) with
  | some c => Except.ok c
  | none => Except.error (Err.missingColumn (missingColumnMsg name))

/-- `self.data[name] = q` on an astropy table, followed by `_add_variable`'s
reset of that column's metadata: replace the column in place when the name is
present (its name is unchanged, hence equal to `name`), append a new column
otherwise; either way the stored metadata becomes `m`. -/
def upsert (t : Table) (name : String) (d : ColData) (m : Meta) : Table :=
  if name ∈ colNames t then
    t.map (fun c => if c.name = name then { name := name, data := d, meta := m } else c)
  else t ++ [{ name := name, data := d, meta := m }]

/-- A value handed to `_add_variable`: the payload plus whatever metadata
mapping the value itself carries (a `Quantity`'s own `meta`). -/
structure VarInput where
  data : ColData
  meta : Meta
deriving Repr, DecidableEq

/-- Whether a value is a `Quantity` with a truthy unit: the condition
`_add_variable` requires. -/
def VarInput.isUnitBearing (v : VarInput) : Bool :=
  match v.data with
  | ColData.quantity _ u => u != ""
  | _ => false

/-- `ScienceData._add_variable`: reject any value that is not a `Quantity`
with a truthy unit, then store the payload under the name and set the stored
column's metadata to `var_attrs`; the incoming value's own metadata is never
copied (only its existence is tested before `update(var_attrs)` runs). -/
def ScienceData.addVariable (sd : ScienceData) (varName : String) (varData : VarInput) (varAttrs : Meta) : Except Err ScienceData :=
  match varData.data with
  | ColData.quantity vs u =>
    if u = "" then Except.error (Err.typeMismatch (addVariableMsg varName))
    else Except.ok { cols := upsert sd.cols varName (ColData.quantity vs u) varAttrs, handler := sd.handler }
  | _ => Except.error (Err.typeMismatch (addVariableMsg varName))

/-- `ScienceData.__setitem__`: delegates to `_add_variable` with an empty
attribute mapping. -/
def ScienceData.setitem (sd : ScienceData) (name : String) (varData : VarInput) : Except Err ScienceData :=
  sd.addVariable name varData []

/-- The state view of item assignment: the `TypeError` in `_add_variable` is
raised before any mutation of the table, so on failure the caller still holds
the container unchanged. -/
def ScienceData.setitemState (sd : ScienceData) (name : String) (varData : VarInput) : ScienceData × Option Err :=
  match sd.setitem name varData with
  | Except.ok sd2 => (sd2, none)
  | Except.error e => (sd, some e)

/-- First value stored under a key of a metadata mapping. -/
def metaLookup (m : Meta) (k : String) : Option String :=
  (m.find? (fun p => p.1 == k)).map (fun p => p.2)

/-- Unit resolution of the `units` property for one column: a `Quantity` has
a `unit` attribute, read directly; a bare astropy `Column` also has a `unit`
attribute but it is null; a `Time` column has no `unit` attribute, so a
truthy "UNITS" metadata entry is consulted, else null. -/
def resolveUnit (c : Column) : Option String :=
  match c.data with
  | ColData.quantity _ u => some u
  | ColData.plain _ => none
  | ColData.time _ =>
    match metaLookup c.meta "UNITS" with
    | some v => if v = "" then none else some v
    | none => none

/-- `ScienceData.units`: the per-column name-to-unit mapping, over every
column of the data. -/
def ScienceData.units (sd : ScienceData) : List (String × Option String) :=
  sd.cols.map (fun c => (c.name, resolveUnit c))

/-- `ScienceData.time`: the time column when one is present, else `None`. -/
def ScienceData.timeProp (sd : ScienceData) : Option Column :=
  if "time" ∈ colNames sd.cols then sd.cols.find? (fun c => c.name == "time") else none

/-- `ScienceData.shape`: `(nrows, ncols)` where `nrows` is the time column's
length and 0 when no time column exists. -/
def ScienceData.shape (sd : ScienceData) : Nat × Nat :=
  (match sd.cols.find? (fun c => c.name == "time") with
   | some c => c.data.vals.length
   | none => 0,
   sd.cols.length)

/-- One delegated call to a handler's `save_data(data=..., file_path=...)`. -/
structure SaveCall where
  handler : Handler
  data : ScienceData
  path : String
deriving Repr, DecidableEq

/-- `ScienceData.save`: require a handler, then delegate once to its
`save_data` with the container itself and the output path.  The delegation
is recorded as a call trace, and the container is returned unchanged. -/
def ScienceData.save (sd : ScienceData) (outputPath : String) : Except Err (ScienceData × List SaveCall) :=
  match sd.handler with
  | none => Except.error (Err.noHandlerConfigured noHandlerMsg)
  | some h => Except.ok (sd, [{ handler := h, data := sd, path := outputPath }])

/-- Index of the last occurrence of a character in a list, when any. -/
def lastIndexOf (ch : Char) : List Char → Option Nat
  | [] => none
  | c :: cs =>
    match lastIndexOf ch cs with
    | some i => some (i + 1)
    | none => if c = ch then some 0 else none

/-- `os.path.splitext(p)[1]` on posix paths: the extension starts at the last
dot, provided that dot lies after the last separator and at least one
character of the base name before the dot is not itself a dot. -/
def splitextExt (p : String) : String :=
  let l := p.data
  let s := match lastIndexOf '/' l with
    | some i => i + 1
    | none => 0
  match lastIndexOf '.' l with
  | some d =>
    if s ≤ d then
      if ((l.drop s).take (d - s)).any (fun c => c != '.') then String.mk (l.drop d)
      else ""
    else ""
  | none => ""

/-- `ScienceData.load`: the handler loads the file into a raw input, which
then goes through the constructor's checks; the handler is stored.  The
behavior of the external `load_data` is a parameter.  (The handler argument
is a `Handler` by type, so the `isinstance` guard always passes.) -/
def ScienceData.load (loadData : Handler → String → InputData) (filename : String) (h : Handler) : Except Err ScienceData :=
  ScienceData.make (loadData h filename) (some h)

/-- Module-level `read`: dispatch on the filename's extension, by exact
case-sensitive match, then load through the selected handler. -/
def read (loadData : Handler → String → InputData) (filename : String) : Except Err ScienceData :=
  let fileExtension := splitextExt filename
  if fileExtension = ".cdf" then ScienceData.load loadData filename Handler.cdf
  else if fileExtension = ".nc" then ScienceData.load loadData filename Handler.netcdf
  else if fileExtension = ".fits" then ScienceData.load loadData filename Handler.fits
  else Except.error (Err.unsupportedFormat (unsupportedMsg fileExtension))

/-- Module-level `validate`: dispatch on the extension as in `read`, then
return the selected validator's issue list unmodified.  The behavior of the
external validators is a parameter. -/
def validate (run : Validator → String → List Issue) (filename : String) : Except Err (List Issue) :=
  let fileExtension := splitextExt filename
  if fileExtension = ".cdf" then Except.ok (run Validator.cdf filename)
  else if fileExtension = ".nc" then Except.ok (run Validator.netcdf filename)
  else if fileExtension = ".fits" then Except.ok (run Validator.fits filename)
  else Except.error (Err.unsupportedFormat (unsupportedMsg fileExtension))

/-- A store of tables at addresses: models which table object each reference
designates, so that aliasing between a caller's table and a container's
internal table is observable. -/
structure World where
  tables : Nat → Table
  next : Nat

/-- A container whose internal table lives in the store. -/
structure SDRef where
  dataAddr : Nat
  handler : Option Handler

/-- Construction from the table object stored at address `a`:
`TimeSeries(data, copy=True)` allocates fresh storage for the container's
internal table, so the container refers to the store's next free address,
never to `a` itself. -/
def constructAt (w : World) (a : Nat) (h : Option Handler) : Except Err (World × SDRef) :=
  match ScienceData.make (InputData.ts (w.tables a)) h with
  | Except.error e => Except.error e
  | Except.ok sd =>
    Except.ok
      ({ tables := fun i => if i = w.next then sd.cols else w.tables i, next := w.next + 1 },
       { dataAddr := w.next, handler := h })

/-- In-place mutation of the table object stored at address `a`. -/
def mutateTable (w : World) (a : Nat) (f : Table → Table) : World :=
  { tables := fun i => if i = a then f (w.tables i) else w.tables i, next := w.next }

/-- Structural invariant of a constructed container: at least two columns,
a "time" column, and every non-time column a `Quantity`. -/
def ScienceData.Valid (sd : ScienceData) : Prop :=
  2 ≤ sd.cols.length ∧ "time" ∈ colNames sd.cols ∧
    ∀ c ∈ sd.cols, c.name ≠ "time" → c.data.isQuantity = true

/-- A concrete valid table: 3 timestamps and a flux column in counts. -/
def sampleTable : Table :=
  [{ name := "time", data := ColData.time [0, 1, 2], meta := [] },
   { name := "flux", data := ColData.quantity [10, 20, 30] "counts", meta := [] }]

/-- The container built from `sampleTable`, no handler. -/
def sampleSD : ScienceData := { cols := sampleTable, handler := none }

/-- The container built from `sampleTable` with the CDF handler. -/
def sampleSDCdf : ScienceData := { cols := sampleTable, handler := some Handler.cdf }

/-- A constant external loader, for instantiating `read` and `load`. -/
def constLoad (d : InputData) : Handler → String → InputData := fun _ _ => d

/-- An external validator family returning no issues. -/
def noIssues : Validator → String → List Issue := fun _ _ => []

/-- A one-object store holding `sampleTable` at address 0. -/
def sampleWorld : World := { tables := fun _ => sampleTable, next := 1 }

/-- A table whose "flux" column is a bare unitless column. -/
def badTable : Table :=
  [{ name := "time", data := ColData.time [0, 1], meta := [] },
   { name := "flux", data := ColData.plain [1, 2], meta := [] }]

theorem firstInvalidColumn_eq_none (t : Table) :
    firstInvalidColumn t = none ↔ ∀ c ∈ t, c.name ≠ "time" → c.data.isQuantity = true := by
  rw [firstInvalidColumn, List.find?_eq_none]
  constructor
  · intro h c hc hn
    have := h c hc
    simp [hn] at this
    exact this
  · intro h c hc
    by_cases hn : c.name = "time"
    · simp [hn]
    · simp [hn, h c hc hn]

theorem firstInvalidColumn_some (t : Table) (c : Column) (h : firstInvalidColumn t = some c) :
    c ∈ t ∧ c.name ≠ "time" ∧ c.data.isQuantity = false := by
  have hm := List.mem_of_find?_eq_some h
  have hp := List.find?_some h
  simp at hp
  exact ⟨hm, hp.1, hp.2⟩

theorem firstInvalidColumn_exists (t : Table) (c : Column) (hc : c ∈ t)
    (hn : c.name ≠ "time") (hq : c.data.isQuantity = false) :
    ∃ c2, firstInvalidColumn t = some c2 := by
  cases he : firstInvalidColumn t with
  | some c2 => exact ⟨c2, rfl⟩
  | none => exact absurd ((firstInvalidColumn_eq_none t).1 he c hc hn) (by simp [hq])

theorem colNames_convert (t : Table) : colNames (convertTimeColumn t) = colNames t := by
  rw [colNames, convertTimeColumn, List.map_map, colNames]
  apply List.map_congr_left
  intro c _
  by_cases hc : c.name = "time" <;> simp [hc]

theorem length_convert (t : Table) : (convertTimeColumn t).length = t.length := by
  simp [convertTimeColumn]

theorem firstInvalidColumn_convert (t : Table) :
    firstInvalidColumn (convertTimeColumn t) = firstInvalidColumn t := by
  induction t with
  | nil => rfl
  | cons a rest ih =>
    simp only [convertTimeColumn, firstInvalidColumn, List.map_cons, List.find?_cons] at ih ⊢
    by_cases ha : a.name = "time"
    · simp [ha, ih]
    · simp only [if_neg ha]
      cases hp : (a.name != "time" && !a.data.isQuantity) <;> simp [hp, ih]

theorem shapeCheck_lt (t : Table) (h : t.length < 2) :
    shapeCheck t = Except.error (Err.invalidShape ncolsMsg) := by
  simp [shapeCheck, h]

theorem shapeCheck_noTime (t : Table) (h1 : ¬ t.length < 2) (h2 : "time" ∉ colNames t) :
    shapeCheck t = Except.error (Err.invalidShape noTimeMsg) := by
  simp [shapeCheck, h1, h2]

theorem shapeCheck_ok (t : Table) (h1 : ¬ t.length < 2) (h2 : "time" ∈ colNames t) :
    shapeCheck t = Except.ok () := by
  simp [shapeCheck, h1, h2]

theorem make_ts_ok (t : Table) (h : Option Handler)
    (hlen : ¬ t.length < 2) (htime : "time" ∈ colNames t)
    (hq : ∀ c ∈ t, c.name ≠ "time" → c.data.isQuantity = true) :
    ScienceData.make (InputData.ts t) h = Except.ok { cols := t, handler := h } := by
  have hf : firstInvalidColumn t = none := (firstInvalidColumn_eq_none t).2 hq
  simp [ScienceData.make, shapeCheck_ok t hlen htime, unitCheck, hf]

theorem make_tbl_ok (t : Table) (h : Option Handler)
    (hlen : ¬ t.length < 2) (htime : "time" ∈ colNames t)
    (hq : ∀ c ∈ t, c.name ≠ "time" → c.data.isQuantity = true) :
    ScienceData.make (InputData.tbl t) h
      = Except.ok { cols := convertTimeColumn t, handler := h } := by
  have hf : firstInvalidColumn (convertTimeColumn t) = none := by
    rw [firstInvalidColumn_convert]
    exact (firstInvalidColumn_eq_none t).2 hq
  simp [ScienceData.make, shapeCheck_ok t hlen htime, unitCheck, hf]

/-- C1: for an input table with fewer than 2 columns, or with 2 or more
columns but no column named "time", construction fails (in both the
`TimeSeries` and the `Table` branch, and hence also via `load`, which runs
the same constructor) with the data-shape `ValueError` naming the violated
rule; the column-count check runs before the time-column check, so when both
rules are violated the column-count message is the one raised. -/
theorem claim_C1 (t : Table) (h : Option Handler) :
    (t.length < 2 →
      ScienceData.make (InputData.ts t) h = Except.error (Err.invalidShape ncolsMsg) ∧
      ScienceData.make (InputData.tbl t) h = Except.error (Err.invalidShape ncolsMsg)) ∧
    (¬ t.length < 2 → "time" ∉ colNames t →
      ScienceData.make (InputData.ts t) h = Except.error (Err.invalidShape noTimeMsg) ∧
      ScienceData.make (InputData.tbl t) h = Except.error (Err.invalidShape noTimeMsg)) ∧
    (∀ loadData filename hd,
      ScienceData.load loadData filename hd = ScienceData.make (loadData hd filename) (some hd)) := by
  refine ⟨fun hlt => ?_, fun hge hnt => ?_, fun _ _ _ => rfl⟩
  · constructor <;> simp [ScienceData.make, shapeCheck_lt t hlt]
  · constructor <;> simp [ScienceData.make, shapeCheck_noTime t hge hnt]

/-- Witness for C1: a one-column table fails on the column count (even though
it also lacks nothing else), and a two-column table without "time" fails on
the time rule. -/
theorem claim_C1_witness :
    ScienceData.make (InputData.ts [{ name := "time", data := ColData.time [0], meta := [] }]) none
      = Except.error (Err.invalidShape ncolsMsg) ∧
    ScienceData.make
        (InputData.ts [{ name := "a", data := ColData.quantity [0] "m", meta := [] },
                       { name := "b", data := ColData.quantity [0] "m", meta := [] }]) none
      = Except.error (Err.invalidShape noTimeMsg) := by
  constructor
  · exact ((claim_C1 _ none).1 (by decide)).1
  · exact ((claim_C1 _ none).2.1 (by decide) (by decide)).1

/-- C2: for an input table that passes the two shape checks, construction
succeeds (in both input branches) exactly when every non-time column is a
`Quantity`; when some non-time column is not a `Quantity`, construction
fails with the `ValueError` naming the first such column, a column that
indeed lies in the table, is not named "time" and is not a `Quantity`. -/
theorem claim_C2 (t : Table) (h : Option Handler)
    (hlen : ¬ t.length < 2) (htime : "time" ∈ colNames t) :
    (ScienceData.make (InputData.ts t) h = Except.ok { cols := t, handler := h } ↔
      ∀ c ∈ t, c.name ≠ "time" → c.data.isQuantity = true) ∧
    (ScienceData.make (InputData.tbl t) h
        = Except.ok { cols := convertTimeColumn t, handler := h } ↔
      ∀ c ∈ t, c.name ≠ "time" → c.data.isQuantity = true) ∧
    (∀ c, firstInvalidColumn t = some c →
      c ∈ t ∧ c.name ≠ "time" ∧ c.data.isQuantity = false ∧
      ScienceData.make (InputData.ts t) h
        = Except.error (Err.missingUnit (notQuantityMsg c.name)) ∧
      ScienceData.make (InputData.tbl t) h
        = Except.error (Err.missingUnit (notQuantityMsg c.name))) ∧
    ((∃ c ∈ t, c.name ≠ "time" ∧ c.data.isQuantity = false) →
      ∃ c, firstInvalidColumn t = some c) := by
  have hs := shapeCheck_ok t hlen htime
  refine ⟨?_, ?_, ?_, ?_⟩
  · constructor
    · intro hmk
      cases hf : firstInvalidColumn t with
      | none => exact (firstInvalidColumn_eq_none t).1 hf
      | some c =>
        rw [show ScienceData.make (InputData.ts t) h
              = Except.error (Err.missingUnit (notQuantityMsg c.name)) by
            simp [ScienceData.make, hs, unitCheck, hf]] at hmk
        exact absurd hmk (by simp)
    · exact make_ts_ok t h hlen htime
  · constructor
    · intro hmk
      cases hf : firstInvalidColumn t with
      | none => exact (firstInvalidColumn_eq_none t).1 hf
      | some c =>
        rw [show ScienceData.make (InputData.tbl t) h
              = Except.error (Err.missingUnit (notQuantityMsg c.name)) by
            simp [ScienceData.make, hs, unitCheck, firstInvalidColumn_convert, hf]] at hmk
        exact absurd hmk (by simp)
    · exact make_tbl_ok t h hlen htime
  · intro c hf
    have hc := firstInvalidColumn_some t c hf
    refine ⟨hc.1, hc.2.1, hc.2.2, ?_, ?_⟩
    · simp [ScienceData.make, hs, unitCheck, hf]
    · simp [ScienceData.make, hs, unitCheck, firstInvalidColumn_convert, hf]
  · rintro ⟨c, hc, hn, hq⟩
    exact firstInvalidColumn_exists t c hc hn hq

/-- Witness for C2: the sample table (all non-time columns unit-bearing)
constructs successfully; `badTable`, whose "flux" column is unitless, fails
with the message naming "flux". -/
theorem claim_C2_witness :
    ScienceData.make (InputData.ts sampleTable) none = Except.ok sampleSD ∧
    ScienceData.make (InputData.ts badTable) none
      = Except.error (Err.missingUnit (notQuantityMsg "flux")) := by
  constructor
  · exact ((claim_C2 sampleTable none (by decide) (by decide)).1).2 (by decide)
  · exact ((claim_C2 badTable none (by decide) (by decide)).2.2.1
      { name := "flux", data := ColData.plain [1, 2], meta := [] } (by decide)).2.2.2.1

/-- C3: `read` and `validate` dispatch by case-sensitive exact match on the
extension `os.path.splitext` yields: ".cdf" selects the CDF handler and
validator, ".nc" the NetCDF ones, ".fits" the FITS ones, and any other
extension raises the unsupported-type `ValueError`; `validate` returns the
selected validator's issue list unmodified (for every validator family
`run`). -/
theorem claim_C3 (loadData : Handler → String → InputData)
    (run : Validator → String → List Issue) (filename : String) :
    (splitextExt filename = ".cdf" →
      read loadData filename = ScienceData.load loadData filename Handler.cdf ∧
      validate run filename = Except.ok (run Validator.cdf filename)) ∧
    (splitextExt filename = ".nc" →
      read loadData filename = ScienceData.load loadData filename Handler.netcdf ∧
      validate run filename = Except.ok (run Validator.netcdf filename)) ∧
    (splitextExt filename = ".fits" →
      read loadData filename = ScienceData.load loadData filename Handler.fits ∧
      validate run filename = Except.ok (run Validator.fits filename)) ∧
    (splitextExt filename ≠ ".cdf" → splitextExt filename ≠ ".nc" → splitextExt filename ≠ ".fits" →
      read loadData filename = Except.error (Err.unsupportedFormat (unsupportedMsg (splitextExt filename))) ∧
      validate run filename = Except.error (Err.unsupportedFormat (unsupportedMsg (splitextExt filename)))) := by
  refine ⟨fun h1 => ?_, fun h2 => ?_, fun h3 => ?_, fun h1 h2 h3 => ?_⟩ <;>
    constructor <;> simp [read, validate, *]

/-- Witness for C3: ".cdf" selects the CDF path, ".nc" the NetCDF validator,
".txt" is unsupported, and the upper-case ".CDF" is also unsupported (the
match is case-sensitive). -/
theorem claim_C3_witness :
    read (constLoad InputData.other) "example.cdf"
      = ScienceData.load (constLoad InputData.other) "example.cdf" Handler.cdf ∧
    validate noIssues "example.nc" = Except.ok [] ∧
    read (constLoad InputData.other) "example.txt"
      = Except.error (Err.unsupportedFormat (unsupportedMsg ".txt")) ∧
    validate noIssues "example.CDF"
      = Except.error (Err.unsupportedFormat (unsupportedMsg ".CDF")) := by
  refine ⟨?_, ?_, ?_, ?_⟩
  · exact ((claim_C3 (constLoad InputData.other) noIssues "example.cdf").1 (by decide)).1
  · exact ((claim_C3 (constLoad InputData.other) noIssues "example.nc").2.1 (by decide)).2
  · exact ((claim_C3 (constLoad InputData.other) noIssues "example.txt").2.2.2
      (by decide) (by decide) (by decide)).1
  · exact ((claim_C3 (constLoad InputData.other) noIssues "example.CDF").2.2.2
      (by decide) (by decide) (by decide)).2

/-- C6: `save` raises the no-handler `ValueError` exactly when no handler is
set; with a handler set it delegates exactly once to that handler's
`save_data`, passing the container itself as the data argument and the given
path as the destination, and returns the container unchanged. -/
theorem claim_C6 (sd : ScienceData) (path : String) :
    (sd.handler = none → sd.save path = Except.error (Err.noHandlerConfigured noHandlerMsg)) ∧
    (∀ hd, sd.handler = some hd →
      sd.save path = Except.ok (sd, [{ handler := hd, data := sd, path := path }])) := by
  constructor
  · intro h; simp [ScienceData.save, h]
  · intro hd h; simp [ScienceData.save, h]

/-- Witness for C6: the sample container with no handler fails to save; with
the CDF handler it delegates once with itself and the path. -/
theorem claim_C6_witness :
    sampleSD.save "out" = Except.error (Err.noHandlerConfigured noHandlerMsg) ∧
    sampleSDCdf.save "out"
      = Except.ok (sampleSDCdf, [{ handler := Handler.cdf, data := sampleSDCdf, path := "out" }]) := by
  constructor
  · exact (claim_C6 sampleSD "out").1 rfl
  · exact (claim_C6 sampleSDCdf "out").2 Handler.cdf rfl

theorem find?_map_overwrite (t : Table) (name : String) (d : ColData) (m : Meta)
    (hmem : name ∈ colNames t) :
    (t.map (fun c => if c.name = name then { name := name, data := d, meta := m } else c)).find?
        (fun c => c.name == name)
      = some { name := name, data := d, meta := m } := by
  induction t with
  | nil => simp [colNames] at hmem
  | cons a rest ih =>
    by_cases ha : a.name = name
    · simp [List.find?_cons, ha]
    · have hr : name ∈ colNames rest := by
        simp [colNames] at hmem ⊢
        rcases hmem with he | he
        · exact absurd he.symm ha
        · exact he
      simp [List.find?_cons, ha, ih hr]

theorem find?_upsert (t : Table) (name : String) (d : ColData) (m : Meta) :
    (upsert t name d m).find? (fun c => c.name == name)
      = some { name := name, data := d, meta := m } := by
  by_cases hmem : name ∈ colNames t
  · rw [upsert, if_pos hmem]
    exact find?_map_overwrite t name d m hmem
  · have hnone : t.find? (fun c => c.name == name) = none := by
      rw [List.find?_eq_none]
      intro c hc
      simp only [beq_iff_eq]
      intro hcn
      exact hmem (by simp [colNames]; exact ⟨c, hc, hcn⟩)
    rw [upsert, if_neg hmem, List.find?_append, hnone]
    simp

theorem colNames_upsert (t : Table) (name : String) (d : ColData) (m : Meta) :
    colNames (upsert t name d m)
      = (if name ∈ colNames t then colNames t else colNames t ++ [name]) := by
  by_cases hmem : name ∈ colNames t
  · rw [upsert, if_pos hmem, if_pos hmem, colNames, List.map_map, colNames]
    apply List.map_congr_left
    intro c _
    by_cases hc : c.name = name <;> simp [hc]
  · rw [upsert, if_neg hmem, if_neg hmem, colNames, colNames, List.map_append]
    rfl

theorem mem_upsert (t : Table) (name : String) (d : ColData) (m : Meta) (c : Column)
    (hc : c ∈ upsert t name d m) :
    c = { name := name, data := d, meta := m } ∨ c ∈ t := by
  by_cases hmem : name ∈ colNames t
  · rw [upsert, if_pos hmem] at hc
    obtain ⟨c0, hc0, he⟩ := List.mem_map.1 hc
    by_cases h0 : c0.name = name
    · left; rw [if_pos h0] at he; exact he.symm
    · right; rw [if_neg h0] at he; exact he ▸ hc0
  · rw [upsert, if_neg hmem] at hc
    rcases List.mem_append.1 hc with h | h
    · right; exact h
    · left; simpa using h

/-- C7: item-style assignment rejects any value that is not a unit-bearing
`Quantity` with the `TypeError` naming the column, and the exception leaves
the container unchanged; a unit-bearing `Quantity` is stored under the name,
overwriting the column when the name is present and appending it otherwise,
with the handler untouched. -/
theorem claim_C7 (sd : ScienceData) (name : String) (v : VarInput) :
    (v.isUnitBearing = false →
      sd.setitemState name v = (sd, some (Err.typeMismatch (addVariableMsg name)))) ∧
    (v.isUnitBearing = true →
      ∃ sd2, sd.setitemState name v = (sd2, none) ∧
        sd2.get name = Except.ok { name := name, data := v.data, meta := [] } ∧
        colNames sd2.cols
          = (if name ∈ colNames sd.cols then colNames sd.cols
             else colNames sd.cols ++ [name]) ∧
        sd2.handler = sd.handler) := by
  constructor
  · intro hfalse
    cases hv : v.data with
    | quantity vs u =>
      have hu : u = "" := by
        rw [VarInput.isUnitBearing, hv] at hfalse
        simpa using hfalse
      simp [ScienceData.setitemState, ScienceData.setitem, ScienceData.addVariable, hv, hu]
    | time vs =>
      simp [ScienceData.setitemState, ScienceData.setitem, ScienceData.addVariable, hv]
    | plain vs =>
      simp [ScienceData.setitemState, ScienceData.setitem, ScienceData.addVariable, hv]
  · intro htrue
    cases hv : v.data with
    | quantity vs u =>
      have hu : ¬ u = "" := by
        rw [VarInput.isUnitBearing, hv] at htrue
        simpa using htrue
      refine ⟨{ cols := upsert sd.cols name (ColData.quantity vs u) [], handler := sd.handler },
        ?_, ?_, ?_, rfl⟩
      · simp [ScienceData.setitemState, ScienceData.setitem, ScienceData.addVariable, hv, hu]
      · rw [ScienceData.get]
        simp only [find?_upsert, hv]
      · exact colNames_upsert sd.cols name (ColData.quantity vs u) []
    | time vs => rw [VarInput.isUnitBearing, hv] at htrue; exact absurd htrue (by simp)
    | plain vs => rw [VarInput.isUnitBearing, hv] at htrue; exact absurd htrue (by simp)

/-- Witness for C7: assigning a unitless column to "energy" fails and leaves
the sample container unchanged; assigning a `Quantity` in keV succeeds and
inserts the column. -/
theorem claim_C7_witness :
    sampleSD.setitemState "energy" { data := ColData.plain [5], meta := [] }
      = (sampleSD, some (Err.typeMismatch (addVariableMsg "energy"))) ∧
    (∃ sd2, sampleSD.setitemState "energy" { data := ColData.quantity [5] "keV", meta := [] }
        = (sd2, none) ∧
      sd2.get "energy"
        = Except.ok { name := "energy", data := ColData.quantity [5] "keV", meta := [] } ∧
      colNames sd2.cols
        = (if "energy" ∈ colNames sampleSD.cols then colNames sampleSD.cols
           else colNames sampleSD.cols ++ ["energy"]) ∧
      sd2.handler = sampleSD.handler) := by
  constructor
  · exact (claim_C7 sampleSD "energy" { data := ColData.plain [5], meta := [] }).1 rfl
  · exact (claim_C7 sampleSD "energy" { data := ColData.quantity [5] "keV", meta := [] }).2 rfl

/-- C8: after a successful item-style assignment the stored column's metadata
is the empty mapping: `__setitem__` passes an empty attribute set to
`_add_variable`, so metadata carried by the assigned value (its `meta` field
here) other than the unit is discarded. -/
theorem claim_C8 (sd : ScienceData) (name : String) (v : VarInput) (sd2 : ScienceData)
    (hok : sd.setitem name v = Except.ok sd2) :
    sd2.get name = Except.ok { name := name, data := v.data, meta := [] } := by
  cases hv : v.data with
  | quantity vs u =>
    simp only [ScienceData.setitem, ScienceData.addVariable, hv] at hok
    by_cases hu : u = ""
    · rw [if_pos hu] at hok
      exact absurd hok (by simp)
    · rw [if_neg hu] at hok
      have hcols : sd2.cols = upsert sd.cols name (ColData.quantity vs u) [] := by
        cases hok
        rfl
      rw [ScienceData.get, hcols]
      simp only [find?_upsert, hv]
  | time vs =>
    simp only [ScienceData.setitem, ScienceData.addVariable, hv] at hok
    exact absurd hok (by simp)
  | plain vs =>
    simp only [ScienceData.setitem, ScienceData.addVariable, hv] at hok
    exact absurd hok (by simp)

/-- Witness for C8: overwriting "flux" with a `Quantity` that itself carries
a metadata entry stores the column with empty metadata. -/
theorem claim_C8_witness :
    ScienceData.get
        { cols := [{ name := "time", data := ColData.time [0, 1, 2], meta := [] },
                   { name := "flux", data := ColData.quantity [1] "J", meta := [] }],
          handler := none } "flux"
      = Except.ok { name := "flux", data := ColData.quantity [1] "J", meta := [] } :=
  claim_C8 sampleSD "flux"
    { data := ColData.quantity [1] "J", meta := [("FIELDNAM", "f")] } _ rfl

/-- C9: for a valid container the `units` mapping has exactly one entry per
column, in column order; each entry resolves per `resolveUnit` (the column's
own unit attribute when it carries one, else a truthy "UNITS" metadata entry,
else null); and for every non-time column the entry equals the unit of the
stored `Quantity`. -/
theorem claim_C9 (sd : ScienceData) (hv : sd.Valid) :
    sd.units.map Prod.fst = colNames sd.cols ∧
    (∀ c ∈ sd.cols, (c.name, resolveUnit c) ∈ sd.units) ∧
    (∀ c ∈ sd.cols, c.name ≠ "time" →
      ∃ vs u, c.data = ColData.quantity vs u ∧ (c.name, some u) ∈ sd.units) := by
  refine ⟨?_, ?_, ?_⟩
  · rw [ScienceData.units, colNames, List.map_map]
    rfl
  · intro c hc
    exact List.mem_map.2 ⟨c, hc, rfl⟩
  · intro c hc hn
    have hq := hv.2.2 c hc hn
    cases hd : c.data with
    | quantity vs u =>
      refine ⟨vs, u, rfl, ?_⟩
      have hr : resolveUnit c = some u := by simp [resolveUnit, hd]
      have hm : (c.name, resolveUnit c) ∈ sd.units := List.mem_map.2 ⟨c, hc, rfl⟩
      rwa [hr] at hm
    | time vs => rw [hd] at hq; exact absurd hq (by simp [ColData.isQuantity])
    | plain vs => rw [hd] at hq; exact absurd hq (by simp [ColData.isQuantity])

/-- Witness for C9 at the sample container: "flux" resolves to "counts". -/
theorem claim_C9_witness :
    sampleSD.units.map Prod.fst = colNames sampleSD.cols ∧
    (∀ c ∈ sampleSD.cols, (c.name, resolveUnit c) ∈ sampleSD.units) ∧
    (∀ c ∈ sampleSD.cols, c.name ≠ "time" →
      ∃ vs u, c.data = ColData.quantity vs u ∧ (c.name, some u) ∈ sampleSD.units) :=
  claim_C9 sampleSD ⟨by decide, by decide, by decide⟩

theorem shapeCheck_ok_inv (t : Table) (h : shapeCheck t = Except.ok ()) :
    2 ≤ t.length ∧ "time" ∈ colNames t := by
  by_cases h1 : t.length < 2
  · rw [shapeCheck_lt t h1] at h
    exact absurd h (by simp)
  · by_cases h2 : "time" ∈ colNames t
    · exact ⟨Nat.le_of_not_lt h1, h2⟩
    · rw [shapeCheck_noTime t h1 h2] at h
      exact absurd h (by simp)

theorem unitCheck_ok_inv (t : Table) (h : unitCheck t = Except.ok ()) :
    ∀ c ∈ t, c.name ≠ "time" → c.data.isQuantity = true := by
  cases hf : firstInvalidColumn t with
  | none => exact (firstInvalidColumn_eq_none t).1 hf
  | some c =>
    simp only [unitCheck, hf] at h
    exact Except.noConfusion h

theorem make_ok_inv (d : InputData) (h : Option Handler) (sd : ScienceData)
    (hok : ScienceData.make d h = Except.ok sd) :
    sd.Valid ∧ sd.handler = h := by
  cases d with
  | other =>
    simp only [ScienceData.make] at hok
    exact Except.noConfusion hok
  | ts t =>
    simp only [ScienceData.make] at hok
    cases hsc : shapeCheck t with
    | error e =>
      simp only [hsc] at hok
      exact Except.noConfusion hok
    | ok u =>
      cases u
      simp only [hsc] at hok
      cases huc : unitCheck t with
      | error e =>
        simp only [huc] at hok
        exact Except.noConfusion hok
      | ok u2 =>
        cases u2
        simp only [huc] at hok
        have hse := shapeCheck_ok_inv t hsc
        have hue := unitCheck_ok_inv t huc
        injection hok with he
        subst he
        exact ⟨⟨hse.1, hse.2, hue⟩, rfl⟩
  | tbl t =>
    simp only [ScienceData.make] at hok
    cases hsc : shapeCheck t with
    | error e =>
      simp only [hsc] at hok
      exact Except.noConfusion hok
    | ok u =>
      cases u
      simp only [hsc] at hok
      cases huc : unitCheck (convertTimeColumn t) with
      | error e =>
        simp only [huc] at hok
        exact Except.noConfusion hok
      | ok u2 =>
        cases u2
        simp only [huc] at hok
        have hse := shapeCheck_ok_inv t hsc
        have hue := unitCheck_ok_inv (convertTimeColumn t) huc
        injection hok with he
        subst he
        refine ⟨⟨?_, ?_, hue⟩, rfl⟩
        · rw [length_convert]; exact hse.1
        · rw [colNames_convert]; exact hse.2

theorem length_upsert (t : Table) (name : String) (d : ColData) (m : Meta) :
    (upsert t name d m).length
      = (if name ∈ colNames t then t.length else t.length + 1) := by
  by_cases hmem : name ∈ colNames t <;> simp [upsert, hmem]

/-- C10: every successfully constructed container is valid (a "time" column
and at least 2 columns, non-time columns all `Quantity`); successful item
assignment preserves validity and never removes a column name; and validity
gives the consequents: the `time` property is never null, the shape's column
count is at least 2, and the shape's row count equals the time column's
length. -/
theorem claim_C10 :
    (∀ d h sd, ScienceData.make d h = Except.ok sd → sd.Valid) ∧
    (∀ (sd : ScienceData) (n : String) (v : VarInput) (sd2 : ScienceData),
      sd.Valid → sd.setitem n v = Except.ok sd2 →
        sd2.Valid ∧ ∀ m ∈ colNames sd.cols, m ∈ colNames sd2.cols) ∧
    (∀ sd : ScienceData, sd.Valid →
      sd.timeProp ≠ none ∧ 2 ≤ sd.shape.2 ∧
      ∀ c, sd.cols.find? (fun x => x.name == "time") = some c →
        sd.shape.1 = c.data.vals.length) := by
  refine ⟨fun d h sd hok => (make_ok_inv d h sd hok).1, ?_, ?_⟩
  · intro sd n v sd2 hv hok
    cases hvd : v.data with
    | quantity vs u =>
      simp only [ScienceData.setitem, ScienceData.addVariable, hvd] at hok
      by_cases hu : u = ""
      · rw [if_pos hu] at hok; exact absurd hok (by simp)
      · rw [if_neg hu] at hok
        injection hok with he
        subst he
        refine ⟨⟨?_, ?_, ?_⟩, ?_⟩
        · show 2 ≤ (upsert sd.cols n (ColData.quantity vs u) []).length
          rw [length_upsert]
          by_cases hmem : n ∈ colNames sd.cols
          · rw [if_pos hmem]; exact hv.1
          · rw [if_neg hmem]; exact le_trans hv.1 (Nat.le_succ _)
        · show "time" ∈ colNames (upsert sd.cols n (ColData.quantity vs u) [])
          rw [colNames_upsert]
          by_cases hmem : n ∈ colNames sd.cols
          · rw [if_pos hmem]; exact hv.2.1
          · rw [if_neg hmem]; exact List.mem_append_left _ hv.2.1
        · intro c hc hn
          rcases mem_upsert sd.cols n (ColData.quantity vs u) [] c hc with he | hm
          · rw [he]; rfl
          · exact hv.2.2 c hm hn
        · intro m hm
          show m ∈ colNames (upsert sd.cols n (ColData.quantity vs u) [])
          rw [colNames_upsert]
          by_cases hmem : n ∈ colNames sd.cols
          · rw [if_pos hmem]; exact hm
          · rw [if_neg hmem]; exact List.mem_append_left _ hm
    | time vs =>
      simp only [ScienceData.setitem, ScienceData.addVariable, hvd] at hok
      exact Except.noConfusion hok
    | plain vs =>
      simp only [ScienceData.setitem, ScienceData.addVariable, hvd] at hok
      exact Except.noConfusion hok
  · intro sd hv
    obtain ⟨h2, htm, _⟩ := hv
    obtain ⟨c0, hc0, he0⟩ := List.mem_map.1 htm
    have hfind : (sd.cols.find? (fun x => x.name == "time")).isSome = true :=
      List.find?_isSome.2 ⟨c0, hc0, by simp [he0]⟩
    refine ⟨?_, h2, ?_⟩
    · rw [ScienceData.timeProp, if_pos htm]
      intro hn
      rw [hn] at hfind
      exact absurd hfind (by simp)
    · intro c hf
      simp [ScienceData.shape, hf]

/-- Witness for C10: the sample container is valid after construction and its
time property is non-null. -/
theorem claim_C10_witness :
    sampleSD.Valid ∧ sampleSD.timeProp ≠ none :=
  ⟨claim_C10.1 (InputData.ts sampleTable) none sampleSD rfl,
   (claim_C10.2.2 sampleSD
     (claim_C10.1 (InputData.ts sampleTable) none sampleSD rfl)).1⟩

theorem find?_name_eq_of_nodup (t : Table) (hnd : (colNames t).Nodup) (c : Column)
    (n : String) (hc : c ∈ t) (hn : c.name = n) :
    t.find? (fun x => x.name == n) = some c := by
  subst hn
  induction t with
  | nil => cases hc
  | cons a rest ih =>
    rw [colNames, List.map_cons, List.nodup_cons] at hnd
    rcases List.mem_cons.1 hc with he | hmem
    · subst he
      simp [List.find?_cons]
    · have hane : a.name ≠ c.name := by
        intro he2
        exact hnd.1 (by rw [he2]; exact List.mem_map.2 ⟨c, hmem, rfl⟩)
      have hb : (a.name == c.name) = false := beq_eq_false_iff_ne.2 hane
      simp only [List.find?_cons, hb]
      exact ih hnd.2 hmem

/-- C4 (round trip): for every valid input table with distinct column names,
construction succeeds in both input branches, and reading each column back
by name yields the input column: in the `TimeSeries` branch the very column
(values, unit and metadata); in the `Table` branch the same except that the
"time" column's payload has been converted to the `Time` index (its values
kept), non-time columns being returned unchanged. -/
theorem claim_C4 (t : Table) (h : Option Handler)
    (hnd : (colNames t).Nodup) (hlen : ¬ t.length < 2) (htime : "time" ∈ colNames t)
    (hq : ∀ c ∈ t, c.name ≠ "time" → c.data.isQuantity = true) :
    ∃ sd sd2,
      ScienceData.make (InputData.ts t) h = Except.ok sd ∧
      ScienceData.make (InputData.tbl t) h = Except.ok sd2 ∧
      (∀ c ∈ t, sd.get c.name = Except.ok c) ∧
      (∀ c ∈ t, ∃ c2, sd2.get c.name = Except.ok c2 ∧ c2.name = c.name ∧
        c2.data.vals = c.data.vals ∧ c2.meta = c.meta ∧ (c.name ≠ "time" → c2 = c)) := by
  have hnd2 : (colNames (convertTimeColumn t)).Nodup := by
    rw [colNames_convert]; exact hnd
  refine ⟨{ cols := t, handler := h }, { cols := convertTimeColumn t, handler := h },
    make_ts_ok t h hlen htime hq, make_tbl_ok t h hlen htime hq, ?_, ?_⟩
  · intro c hc
    rw [ScienceData.get]
    simp only [find?_name_eq_of_nodup t hnd c c.name hc rfl]
  · intro c hc
    by_cases hcn : c.name = "time"
    · refine ⟨{ name := c.name, data := ColData.time c.data.vals, meta := c.meta },
        ?_, rfl, rfl, rfl, fun hne => absurd hcn hne⟩
      rw [ScienceData.get]
      have hmem : ({ name := c.name, data := ColData.time c.data.vals, meta := c.meta } : Column)
          ∈ convertTimeColumn t := by
        rw [convertTimeColumn]
        exact List.mem_map.2 ⟨c, hc, by rw [if_pos hcn]⟩
      simp only [find?_name_eq_of_nodup (convertTimeColumn t) hnd2 _ c.name hmem rfl]
    · refine ⟨c, ?_, rfl, rfl, rfl, fun _ => rfl⟩
      rw [ScienceData.get]
      have hmem : c ∈ convertTimeColumn t := by
        rw [convertTimeColumn]
        exact List.mem_map.2 ⟨c, hc, by rw [if_neg hcn]⟩
      simp only [find?_name_eq_of_nodup (convertTimeColumn t) hnd2 c c.name hmem rfl]

/-- Witness for C4 at the sample table. -/
theorem claim_C4_witness :
    ∃ sd sd2,
      ScienceData.make (InputData.ts sampleTable) none = Except.ok sd ∧
      ScienceData.make (InputData.tbl sampleTable) none = Except.ok sd2 ∧
      (∀ c ∈ sampleTable, sd.get c.name = Except.ok c) ∧
      (∀ c ∈ sampleTable, ∃ c2, sd2.get c.name = Except.ok c2 ∧ c2.name = c.name ∧
        c2.data.vals = c.data.vals ∧ c2.meta = c.meta ∧ (c.name ≠ "time" → c2 = c)) :=
  claim_C4 sampleTable none (by decide) (by decide) (by decide) (by decide)

/-- C5 (copy isolation): constructing from the table object stored at an
existing address succeeds only by allocating a fresh address for the
container's internal table, so the container never aliases the caller's
object and any in-place mutation of the original table afterwards leaves the
container's stored columns unchanged. -/
theorem claim_C5 (w : World) (a : Nat) (h : Option Handler)
    (ha : a < w.next) (hok : ∃ p, constructAt w a h = Except.ok p) :
    ∃ w2 r, constructAt w a h = Except.ok (w2, r) ∧ r.dataAddr ≠ a ∧
      ∀ f, (mutateTable w2 a f).tables r.dataAddr = w2.tables r.dataAddr := by
  obtain ⟨p, hp⟩ := hok
  cases hm : ScienceData.make (InputData.ts (w.tables a)) h with
  | error e =>
    simp only [constructAt, hm] at hp
    exact Except.noConfusion hp
  | ok sd =>
    have hne : w.next ≠ a := fun he => absurd (he ▸ ha) (lt_irrefl a)
    refine ⟨{ tables := fun i => if i = w.next then sd.cols else w.tables i, next := w.next + 1 },
      { dataAddr := w.next, handler := h }, ?_, hne, ?_⟩
    · simp only [constructAt, hm]
    · intro f
      simp [mutateTable, hne]

/-- Witness for C5: the sample world holds a table at address 0 below the
allocation frontier, construction from it succeeds, and mutation at 0 leaves
the container's table untouched. -/
theorem claim_C5_witness :
    0 < sampleWorld.next ∧
    ∃ w2 r, constructAt sampleWorld 0 none = Except.ok (w2, r) ∧ r.dataAddr ≠ 0 ∧
      ∀ f, (mutateTable w2 0 f).tables r.dataAddr = w2.tables r.dataAddr :=
  ⟨by decide, claim_C5 sampleWorld 0 none (by decide) ⟨_, rfl⟩⟩

end HermesCore
